import Mathlib

/-!
Verification of the change-request workflow engine of the secret-review
repository.  The Lambda handlers under src/lambda/handlers are embedded as
pure Lean functions over an explicit world state holding the live secrets,
the staging secrets and the DynamoDB change ledger.  Each handler returns
its result (one constructor per return site of the TypeScript code, with
the literal HTTP status attached) together with the updated world.
-/

namespace SecretReview

/-- A JSON object of string keys and string values, as stored in a secret.
JavaScript objects have unique keys; theorems that need that fact carry a
Nodup hypothesis on the key list. -/
abbrev SMap := List (String × String)

/-- JavaScript property lookup obj[k] on an SMap. -/
def SMap.find? : SMap → String → Option String
  | [], _ => none
  | (k1, v) :: rest, k => if k1 = k then some v else SMap.find? rest k

/-- Object.keys. -/
def SMap.keys (m : SMap) : List String := m.map Prod.fst

/-- Truthiness of a TypeScript value of type string or undefined:
undefined and the empty string are falsy. -/
def strTruthy : Option String → Bool
  | none => false
  | some s => decide (s ≠ "")

/-- Diff entry type tag, from shared/types.ts. -/
inductive DiffType
  | added
  | modified
  | removed
deriving DecidableEq, Repr

/-- DiffEntry, from shared/types.ts. -/
structure DiffEntry where
  type : DiffType
  key : String
deriving DecidableEq, Repr

/-- First loop of computeDiff in propose.ts: over Object.keys(proposedValues),
emit added when the key is absent from currentValues, modified when present
with a different value. -/
def diffAddedModified (currentValues proposedValues : SMap) : List DiffEntry :=
  proposedValues.filterMap (fun kv =>
    match SMap.find? currentValues kv.1 with
    | none => some ⟨DiffType.added, kv.1⟩
    | some v => if v ≠ kv.2 then some ⟨DiffType.modified, kv.1⟩ else none)

/-- Second loop of computeDiff in propose.ts: over Object.keys(currentValues),
emit removed when the key is absent from proposedValues. -/
def diffRemoved (currentValues proposedValues : SMap) : List DiffEntry :=
  currentValues.filterMap (fun kv =>
    if (SMap.find? proposedValues kv.1).isSome then none
    else some ⟨DiffType.removed, kv.1⟩)

/-- computeDiff from propose.ts lines 19-40: the two scan passes appended
in order (added/modified first, then removed). -/
def computeDiff (currentValues proposedValues : SMap) : List DiffEntry :=
  diffAddedModified currentValues proposedValues ++
    diffRemoved currentValues proposedValues

/-- Change status, from shared/types.ts. -/
inductive Status
  | pending
  | approved
  | rejected
deriving DecidableEq, Repr

/-- ChangeRequest, from shared/types.ts. -/
structure ChangeRequest where
  pk : String
  sk : String
  changeId : String
  project : String
  env : String
  status : Status
  proposedBy : String
  stagingSecretName : String
  diff : List DiffEntry
  diffCount : Nat
  reason : String
  comment : Option String := none
  reviewedBy : Option String := none
  reviewedAt : Option String := none
  createdAt : String
  secretVersionId : Option String := none
  previousVersionId : Option String := none
  currentKeys : Option (List String) := none
deriving DecidableEq, Repr

/-- StagingSecretPayload, from shared/types.ts. -/
structure StagingSecretPayload where
  proposed : SMap
  previous : SMap
  project : String
  env : String
deriving DecidableEq, Repr

/-- One live secret in Secrets Manager: its current values, the VersionId of
the current version (optional in the AWS response type), and the values held
under the AWSPREVIOUS version stage when a prior version exists. -/
structure LiveSecret where
  current : SMap
  currentVersionId : Option String
  previousValues : Option SMap
deriving DecidableEq, Repr

/-- The external state the handlers read and write: live secrets keyed by
(project, env), staging secrets keyed by change id, and the DynamoDB ledger
of ChangeRequest records. -/
structure World where
  live : List ((String × String) × LiveSecret)
  staging : List (String × StagingSecretPayload)
  ledger : List ChangeRequest
deriving DecidableEq, Repr

def lookupLive : List ((String × String) × LiveSecret) → String → String →
    Option LiveSecret
  | [], _, _ => none
  | (k, s) :: rest, project, env =>
    if k = (project, env) then some s else lookupLive rest project env

/-- getCurrentSecretValue from shared/secrets.ts: values plus VersionId;
a missing secret (ResourceNotFoundException) yields the empty baseline with
no version id. -/
def getCurrentSecretValue (w : World) (project env : String) :
    SMap × Option String :=
  match lookupLive w.live project env with
  | none => ([], none)
  | some s => (s.current, s.currentVersionId)

/-- getSecretByVersionStage from shared/secrets.ts, for the AWSPREVIOUS
stage: undefined when the secret or the prior version is missing. -/
def getSecretByVersionStage (w : World) (project env : String) : Option SMap :=
  match lookupLive w.live project env with
  | none => none
  | some s => s.previousValues

def putLive : List ((String × String) × LiveSecret) → String → String →
    SMap → String → List ((String × String) × LiveSecret)
  | [], _, _, _, _ => []
  | (k, s) :: rest, project, env, values, newVid =>
    if k = (project, env) then
      (k, ⟨values, some newVid, some s.current⟩) :: rest
    else (k, s) :: putLive rest project env values newVid

/-- putSecretValue from shared/secrets.ts: writes the values as a new
version.  The store assigns the fresh version id (passed here as newVid)
and the old current version becomes the AWSPREVIOUS stage. -/
def putSecretValue (w : World) (project env : String) (values : SMap)
    (newVid : String) : World :=
  ⟨putLive w.live project env values newVid, w.staging, w.ledger⟩

def lookupStaging : List (String × StagingSecretPayload) → String →
    Option StagingSecretPayload
  | [], _ => none
  | (k, p) :: rest, changeId =>
    if k = changeId then some p else lookupStaging rest changeId

/-- getStagingSecretValue from shared/secrets.ts. -/
def getStagingSecretValue (w : World) (changeId : String) :
    Option StagingSecretPayload :=
  lookupStaging w.staging changeId

def removeStaging : List (String × StagingSecretPayload) → String →
    List (String × StagingSecretPayload)
  | [], _ => []
  | (k, p) :: rest, changeId =>
    if k = changeId then removeStaging rest changeId
    else (k, p) :: removeStaging rest changeId

/-- deleteStagingSecret from shared/secrets.ts: idempotent, deleting an
absent staging secret is a no-op. -/
def deleteStagingSecret (w : World) (changeId : String) : World :=
  ⟨w.live, removeStaging w.staging changeId, w.ledger⟩

def findChange : List ChangeRequest → String → Option ChangeRequest
  | [], _ => none
  | c :: rest, changeId =>
    if c.changeId = changeId then some c else findChange rest changeId

/-- getChangeById from shared/dynamo.ts: lookup through the changeId
secondary index, first match. -/
def getChangeById (w : World) (changeId : String) : Option ChangeRequest :=
  findChange w.ledger changeId

/-- putChange from shared/dynamo.ts. -/
def putChange (w : World) (c : ChangeRequest) : World :=
  ⟨w.live, w.staging, w.ledger ++ [c]⟩

def buildPk (project env : String) : String :=
  "PROJECT#" ++ project ++ "#ENV#" ++ env

def buildSk (createdAt changeId : String) : String :=
  "CHANGE#" ++ createdAt ++ "#" ++ changeId

/-- UpdateChangeStatusExtras, from shared/dynamo.ts. -/
structure UpdateChangeStatusExtras where
  previousVersionId : Option String := none
  currentKeys : Option (List String) := none
deriving DecidableEq, Repr

/-- The SET expression of updateChangeStatus applied to one item: status,
reviewedBy, reviewedAt always; comment and extras.previousVersionId only
when truthy; extras.currentKeys whenever the array is provided. -/
def applyStatusUpdate (status : Status) (reviewedBy : String) (now : String)
    (comment : Option String) (extras : UpdateChangeStatusExtras)
    (r : ChangeRequest) : ChangeRequest :=
  { r with
    status := status
    reviewedBy := some reviewedBy
    reviewedAt := some now
    comment := if strTruthy comment then comment else r.comment
    previousVersionId :=
      if strTruthy extras.previousVersionId then extras.previousVersionId
      else r.previousVersionId
    currentKeys :=
      match extras.currentKeys with
      | some ks => some ks
      | none => r.currentKeys }

/-- updateChangeStatus from shared/dynamo.ts: update of the item keyed by
(pk, sk). -/
def updateChangeStatus (w : World) (pk sk : String) (status : Status)
    (reviewedBy : String) (comment : Option String)
    (extras : UpdateChangeStatusExtras) (now : String) : World :=
  ⟨w.live, w.staging,
    w.ledger.map (fun r =>
      if r.pk = pk ∧ r.sk = sk then
        applyStatusUpdate status reviewedBy now comment extras r
      else r)⟩

/-- Result of the approve handler (approve.ts), one constructor per return
site. -/
inductive ApproveResult
  | missingChangeId
  | changeNotFound
  | alreadyResolved (status : Status)
  | selfApprovalForbidden
  | versionConflict
  | stagingMissing
  | internalError
  | applied (changeId project env : String)
deriving DecidableEq, Repr

/-- The literal HTTP status of each return site of approve.ts.  Note that
the missing-staging return uses status 500 in the source. -/
def ApproveResult.statusCode : ApproveResult → Nat
  | .missingChangeId => 400
  | .changeNotFound => 404
  | .alreadyResolved _ => 409
  | .selfApprovalForbidden => 403
  | .versionConflict => 409
  | .stagingMissing => 500
  | .internalError => 500
  | .applied _ _ _ => 200

/-- The optimistic-concurrency check of approve.ts lines 43-55: only when
change.secretVersionId is truthy is the current version id re-read, and a
conflict is flagged only when the current id is truthy and differs. -/
def versionConflictDetected (w : World) (change : ChangeRequest) : Bool :=
  match change.secretVersionId with
  | none => false
  | some recorded =>
    if recorded = "" then false
    else
      match (getCurrentSecretValue w change.project change.env).2 with
      | none => false
      | some currentVersionId =>
        if currentVersionId = "" then false
        else decide (currentVersionId ≠ recorded)

/-- The approve handler (approve.ts).  preventSelfApproval is the module
configuration PREVENT_SELF_APPROVAL, reviewerEmail the identity from the
JWT, newVid the version id Secrets Manager assigns to the written version,
now the reviewedAt timestamp.  PutSecretValue on a missing secret raises
ResourceNotFoundException, caught by the top-level handler as a 500
internal error, modelled by the internalError branch. -/
def approve (preventSelfApproval : Bool) (changeId? : Option String)
    (reviewerEmail : String) (comment : Option String) (newVid now : String)
    (w : World) : ApproveResult × World :=
  match changeId? with
  | none => (.missingChangeId, w)
  | some changeId =>
    match getChangeById w changeId with
    | none => (.changeNotFound, w)
    | some change =>
      if change.status ≠ Status.pending then (.alreadyResolved change.status, w)
      else if preventSelfApproval ∧ change.proposedBy = reviewerEmail then
        (.selfApprovalForbidden, w)
      else if versionConflictDetected w change then (.versionConflict, w)
      else
        match getStagingSecretValue w changeId with
        | none => (.stagingMissing, w)
        | some stagingData =>
          match lookupLive w.live change.project change.env with
          | none => (.internalError, w)
          | some _ =>
            let previousVersionId :=
              (getCurrentSecretValue w change.project change.env).2
            let w1 := putSecretValue w change.project change.env
              stagingData.proposed newVid
            let w2 := deleteStagingSecret w1 changeId
            let w3 := updateChangeStatus w2 change.pk change.sk
              Status.approved reviewerEmail comment
              ⟨previousVersionId, some (SMap.keys stagingData.proposed)⟩ now
            (.applied changeId change.project change.env, w3)

/-- Result of the reject handler (reject.ts), one constructor per return
site. -/
inductive RejectResult
  | missingChangeId
  | changeNotFound
  | alreadyResolved (status : Status)
  | rejected (changeId : String)
deriving DecidableEq, Repr

def RejectResult.statusCode : RejectResult → Nat
  | .missingChangeId => 400
  | .changeNotFound => 404
  | .alreadyResolved _ => 409
  | .rejected _ => 200

/-- The reject handler (reject.ts): no self-approval check, staging deleted
idempotently, ledger updated to rejected with no extras. -/
def reject (changeId? : Option String) (reviewerEmail : String)
    (comment : Option String) (now : String) (w : World) :
    RejectResult × World :=
  match changeId? with
  | none => (.missingChangeId, w)
  | some changeId =>
    match getChangeById w changeId with
    | none => (.changeNotFound, w)
    | some change =>
      if change.status ≠ Status.pending then (.alreadyResolved change.status, w)
      else
        let w1 := deleteStagingSecret w changeId
        let w2 := updateChangeStatus w1 change.pk change.sk Status.rejected
          reviewerEmail comment ⟨none, none⟩ now
        (.rejected changeId, w2)

/-- ProposeRequestBody, from shared/types.ts.  Fields absent from the JSON
body parse to undefined; the handler only distinguishes truthiness, so a
missing field is modelled as the empty string. -/
structure ProposeRequestBody where
  project : String
  env : String
  stagingSecretName : String
  reason : String
deriving DecidableEq, Repr

/-- Result of the propose handler (propose.ts), one constructor per return
site. -/
inductive ProposeResult
  | missingFields
  | invalidTarget
  | invalidStagingName
  | stagingNotFound
  | targetMismatch
  | noChange
  | proposed (changeId : String) (diff : List DiffEntry) (diffCount : Nat)
deriving DecidableEq, Repr

def ProposeResult.statusCode : ProposeResult → Nat
  | .missingFields => 400
  | .invalidTarget => 400
  | .invalidStagingName => 400
  | .stagingNotFound => 400
  | .targetMismatch => 400
  | .noChange => 200
  | .proposed _ _ _ => 200

/-- JavaScript String.startsWith, on the character sequences. -/
def strStartsWith (s pre : String) : Bool := pre.data.isPrefixOf s.data

/-- JavaScript String.slice(n): drop the first n characters. -/
def strDrop (s : String) (n : Nat) : String := ⟨s.data.drop n⟩

def lookupConfig : List (String × List String) → String → Option (List String)
  | [], _ => none
  | (p, envs) :: rest, project =>
    if p = project then some envs else lookupConfig rest project

/-- The propose handler (propose.ts).  projectsConfig is the parsed
PROJECTS_CONFIG, secretsNs the SECRETS_PREFIX setting, proposedBy the
identity from the JWT, now the createdAt timestamp. -/
def propose (projectsConfig : List (String × List String))
    (secretsNs : String) (body : ProposeRequestBody) (proposedBy : String)
    (now : String) (w : World) : ProposeResult × World :=
  if body.project = "" ∨ body.env = "" ∨ body.stagingSecretName = "" ∨
      body.reason = "" then
    (.missingFields, w)
  else
    match lookupConfig projectsConfig body.project with
    | none => (.invalidTarget, w)
    | some allowedEnvs =>
      if body.env ∉ allowedEnvs then (.invalidTarget, w)
      else
        let stagingNs := secretsNs ++ "pending/"
        if ¬ strStartsWith body.stagingSecretName stagingNs then
          (.invalidStagingName, w)
        else
          let changeId := strDrop body.stagingSecretName stagingNs.length
          match getStagingSecretValue w changeId with
          | none => (.stagingNotFound, w)
          | some stagingData =>
            if stagingData.project ≠ body.project ∨
                stagingData.env ≠ body.env then
              (.targetMismatch, w)
            else
              let cur := getCurrentSecretValue w body.project body.env
              let diff := computeDiff cur.1 stagingData.proposed
              if diff.length = 0 then (.noChange, w)
              else
                let change : ChangeRequest :=
                  { pk := buildPk body.project body.env
                    sk := buildSk now changeId
                    changeId := changeId
                    project := body.project
                    env := body.env
                    status := Status.pending
                    proposedBy := proposedBy
                    stagingSecretName := body.stagingSecretName
                    diff := diff
                    diffCount := diff.length
                    reason := body.reason
                    createdAt := now
                    secretVersionId := cur.2 }
                (.proposed changeId diff diff.length, putChange w change)

/-- RollbackBody, from shared/types.ts; missing JSON fields modelled as the
empty string as for propose. -/
structure RollbackBody where
  changeId : String
  reason : String
deriving DecidableEq, Repr

/-- Result of the rollback handler (rollback.ts), one constructor per
return site.  Note that the non-approved-status return uses status 400 in
the source. -/
inductive RollbackResult
  | missingFields
  | changeNotFound
  | notApproved
  | noPreviousVersion
  | rolledBack (rollbackId project env : String)
deriving DecidableEq, Repr

def RollbackResult.statusCode : RollbackResult → Nat
  | .missingFields => 400
  | .changeNotFound => 404
  | .notApproved => 400
  | .noPreviousVersion => 400
  | .rolledBack _ _ _ => 200

/-- The rollback handler (rollback.ts).  rollbackId is the freshly minted
uuid, now the createdAt timestamp, newVid the version id assigned by the
store to the restoring write. -/
def rollback (body : RollbackBody) (userEmail rollbackId now newVid : String)
    (w : World) : RollbackResult × World :=
  if body.changeId = "" ∨ body.reason = "" then (.missingFields, w)
  else
    match getChangeById w body.changeId with
    | none => (.changeNotFound, w)
    | some targetChange =>
      if targetChange.status ≠ Status.approved then (.notApproved, w)
      else
        match getSecretByVersionStage w targetChange.project
          targetChange.env with
        | none => (.noPreviousVersion, w)
        | some rollbackValues =>
          let w1 := putSecretValue w targetChange.project targetChange.env
            rollbackValues newVid
          let rollbackChange : ChangeRequest :=
            { pk := buildPk targetChange.project targetChange.env
              sk := buildSk now rollbackId
              changeId := rollbackId
              project := targetChange.project
              env := targetChange.env
              status := Status.approved
              proposedBy := userEmail
              stagingSecretName := ""
              diff := [⟨DiffType.modified,
                "[rollback of " ++ body.changeId ++ "]"⟩]
              diffCount := (SMap.keys rollbackValues).length
              reason := "Rollback: " ++ body.reason
              reviewedBy := some userEmail
              reviewedAt := some now
              createdAt := now
              currentKeys := some (SMap.keys rollbackValues) }
          (.rolledBack rollbackId targetChange.project targetChange.env,
            putChange w1 rollbackChange)

/-- One entry of the listStagingSecrets result (shared/secrets.ts): the
createdAt and changeId tags are optional in the listing type.  The creation
timestamp is modelled as milliseconds since the epoch, as produced by
Date.getTime on the parsed tag. -/
structure StagingListItem where
  name : String
  createdAt : Option Int
  changeId : Option String
deriving DecidableEq, Repr

def MAX_AGE_DAYS : Int := 7

def msPerDay : Int := 1000 * 60 * 60 * 24

/-- The per-record selection of the cleanup handler (cleanup.ts lines
13-40): delete when strictly older than MAX_AGE_DAYS, otherwise when the
associated change (looked up by the changeId tag) is resolved or missing. -/
def shouldDeleteStaging (nowMs : Int) (ledger : List ChangeRequest)
    (secret : StagingListItem) : Bool :=
  let ageDelete :=
    match secret.createdAt with
    | none => false
    | some createdAt => decide (nowMs - createdAt > MAX_AGE_DAYS * msPerDay)
  if ageDelete then true
  else
    match secret.changeId with
    | none => false
    | some cid =>
      match findChange ledger cid with
      | some change => decide (change.status ≠ Status.pending)
      | none => true

/-- The deletion target of the cleanup handler: secret.changeId ?? name. -/
def deleteTargetId (secret : StagingListItem) : String :=
  secret.changeId.getD secret.name

/-- The cleanup sweep loop (cleanup.ts): for each listed staging secret
compute the selection, attempt the deletion inside try/catch (delOk says
whether the store call succeeds; a failure is logged and the loop
continues), and count the record.  Returns the final world, the list of
attempted deletion targets in order, and deletedCount. -/
def cleanupSweep (nowMs : Int) (delOk : String → Bool) :
    List StagingListItem → World → World × List String × Nat
  | [], w => (w, [], 0)
  | secret :: rest, w =>
    if shouldDeleteStaging nowMs w.ledger secret then
      let target := deleteTargetId secret
      let w1 := if delOk target then deleteStagingSecret w target else w
      let r := cleanupSweep nowMs delOk rest w1
      (r.1, target :: r.2.1, r.2.2 + 1)
    else cleanupSweep nowMs delOk rest w

theorem SMap.mem_of_find?_eq_some {m : SMap} {k v : String}
    (h : SMap.find? m k = some v) : (k, v) ∈ m := by
  induction m with
  | nil => simp [SMap.find?] at h
  | cons kv rest ih =>
    obtain ⟨k1, v1⟩ := kv
    rw [SMap.find?] at h
    by_cases hk : k1 = k
    · rw [if_pos hk] at h
      subst hk
      injection h with h
      subst h
      exact List.mem_cons_self _ _
    · rw [if_neg hk] at h
      exact List.mem_cons_of_mem _ (ih h)

theorem SMap.find?_eq_some_of_mem {m : SMap} {k v : String}
    (hn : (SMap.keys m).Nodup) (h : (k, v) ∈ m) : SMap.find? m k = some v := by
  induction m with
  | nil => simp at h
  | cons kv rest ih =>
    obtain ⟨k1, v1⟩ := kv
    rw [SMap.keys, List.map_cons, List.nodup_cons] at hn
    rw [SMap.find?]
    rcases List.mem_cons.mp h with h | h
    · injection h with ha hb
      subst ha; subst hb
      rw [if_pos rfl]
    · by_cases hk : k1 = k
      · subst hk
        exact absurd (List.mem_map_of_mem Prod.fst h) hn.1
      · rw [if_neg hk]
        exact ih hn.2 h

theorem SMap.find?_isSome_iff {m : SMap} {k : String} :
    (SMap.find? m k).isSome = true ↔ k ∈ SMap.keys m := by
  induction m with
  | nil => simp [SMap.find?, SMap.keys]
  | cons kv rest ih =>
    obtain ⟨k1, v1⟩ := kv
    rw [SMap.find?, SMap.keys, List.map_cons]
    by_cases hk : k1 = k
    · subst hk
      simp
    · rw [if_neg hk]
      simp only [List.mem_cons]
      rw [SMap.keys] at ih
      constructor
      · intro h
        exact Or.inr (ih.mp h)
      · intro h
        rcases h with h | h
        · exact absurd h.symm hk
        · exact ih.mpr h

theorem SMap.find?_eq_none_iff {m : SMap} {k : String} :
    SMap.find? m k = none ↔ k ∉ SMap.keys m := by
  rw [← SMap.find?_isSome_iff]
  cases SMap.find? m k <;> simp

theorem lookupLive_putLive (l : List ((String × String) × LiveSecret))
    (project env : String) (values : SMap) (newVid : String) (s : LiveSecret)
    (h : lookupLive l project env = some s) :
    lookupLive (putLive l project env values newVid) project env =
      some ⟨values, some newVid, some s.current⟩ := by
  induction l with
  | nil => simp [lookupLive] at h
  | cons head tail ih =>
    obtain ⟨k, sec⟩ := head
    by_cases hk : k = (project, env)
    · rw [lookupLive, if_pos hk] at h
      injection h with h
      subst h
      rw [putLive, if_pos hk, lookupLive, if_pos hk]
    · rw [lookupLive, if_neg hk] at h
      rw [putLive, if_neg hk, lookupLive, if_neg hk]
      exact ih h

theorem putLive_preserves_other (l : List ((String × String) × LiveSecret))
    (project env p2 e2 : String) (values : SMap) (newVid : String)
    (hne : (p2, e2) ≠ (project, env)) :
    lookupLive (putLive l project env values newVid) p2 e2 =
      lookupLive l p2 e2 := by
  induction l with
  | nil => rfl
  | cons head tail ih =>
    obtain ⟨k, sec⟩ := head
    by_cases hk : k = (project, env)
    · subst hk
      have hne2 : ¬((project, env) = (p2, e2)) := fun hc => hne hc.symm
      rw [putLive, if_pos rfl, lookupLive, lookupLive, if_neg hne2, if_neg hne2]
    · rw [putLive, if_neg hk, lookupLive, lookupLive]
      by_cases hk2 : k = (p2, e2)
      · rw [if_pos hk2, if_pos hk2]
      · rw [if_neg hk2, if_neg hk2]
        exact ih

theorem mem_diffAddedModified_key {b p : SMap} {e : DiffEntry}
    (h : e ∈ diffAddedModified b p) :
    e.key ∈ SMap.keys p ∧ e.type ≠ DiffType.removed := by
  obtain ⟨kv, hkv, hf⟩ := List.mem_filterMap.mp h
  have hkey : e.key = kv.1 ∧ e.type ≠ DiffType.removed := by
    cases hb : SMap.find? b kv.1 with
    | none =>
      rw [hb] at hf
      dsimp only at hf
      injection hf with hf
      subst hf
      exact ⟨rfl, by simp⟩
    | some vb =>
      rw [hb] at hf
      dsimp only at hf
      by_cases hv : vb ≠ kv.2
      · rw [if_pos hv] at hf
        injection hf with hf
        subst hf
        exact ⟨rfl, by simp⟩
      · rw [if_neg hv] at hf
        exact absurd hf (by simp)
  exact ⟨hkey.1 ▸ List.mem_map_of_mem Prod.fst hkv, hkey.2⟩

theorem mem_diffRemoved_key {b p : SMap} {e : DiffEntry}
    (h : e ∈ diffRemoved b p) :
    e.key ∈ SMap.keys b ∧ SMap.find? p e.key = none ∧
      e.type = DiffType.removed := by
  obtain ⟨kv, hkv, hf⟩ := List.mem_filterMap.mp h
  by_cases hs : (SMap.find? p kv.1).isSome = true
  · rw [if_pos hs] at hf
    exact absurd hf (by simp)
  · rw [if_neg hs] at hf
    injection hf with hf
    subst hf
    refine ⟨List.mem_map_of_mem Prod.fst hkv, ?_, rfl⟩
    cases hpf : SMap.find? p kv.1
    · rfl
    · rw [hpf] at hs
      exact absurd rfl hs

theorem added_mem_computeDiff_iff (b p : SMap) (k : String) :
    DiffEntry.mk DiffType.added k ∈ computeDiff b p ↔
      k ∈ SMap.keys p ∧ SMap.find? b k = none := by
  rw [computeDiff, List.mem_append]
  constructor
  · intro h
    rcases h with h | h
    · obtain ⟨kv, hkv, hf⟩ := List.mem_filterMap.mp h
      cases hb : SMap.find? b kv.1 with
      | none =>
        rw [hb] at hf
        dsimp only at hf
        injection hf with hf
        have hk : kv.1 = k := congrArg DiffEntry.key hf
        subst hk
        exact ⟨List.mem_map_of_mem Prod.fst hkv, hb⟩
      | some vb =>
        rw [hb] at hf
        dsimp only at hf
        by_cases hv : vb ≠ kv.2
        · rw [if_pos hv] at hf
          injection hf with hf
          exact absurd (congrArg DiffEntry.type hf) (by simp)
        · rw [if_neg hv] at hf
          exact absurd hf (by simp)
    · exact absurd (mem_diffRemoved_key h).2.2 (by simp)
  · rintro ⟨hk, hb⟩
    obtain ⟨⟨k1, v1⟩, hmem, hk1⟩ := List.mem_map.mp hk
    dsimp at hk1
    subst hk1
    refine Or.inl (List.mem_filterMap.mpr ⟨(k1, v1), hmem, ?_⟩)
    rw [hb]

theorem modified_mem_computeDiff_iff (b p : SMap) (k : String)
    (hp : (SMap.keys p).Nodup) :
    DiffEntry.mk DiffType.modified k ∈ computeDiff b p ↔
      ∃ vb vp, SMap.find? b k = some vb ∧ SMap.find? p k = some vp ∧
        vb ≠ vp := by
  rw [computeDiff, List.mem_append]
  constructor
  · intro h
    rcases h with h | h
    · obtain ⟨kv, hkv, hf⟩ := List.mem_filterMap.mp h
      cases hb : SMap.find? b kv.1 with
      | none =>
        rw [hb] at hf
        dsimp only at hf
        injection hf with hf
        exact absurd (congrArg DiffEntry.type hf) (by simp)
      | some vb =>
        rw [hb] at hf
        dsimp only at hf
        by_cases hv : vb ≠ kv.2
        · rw [if_pos hv] at hf
          injection hf with hf
          have hk : kv.1 = k := congrArg DiffEntry.key hf
          subst hk
          exact ⟨vb, kv.2, hb, SMap.find?_eq_some_of_mem hp hkv, hv⟩
        · rw [if_neg hv] at hf
          exact absurd hf (by simp)
    · exact absurd (mem_diffRemoved_key h).2.2 (by simp)
  · rintro ⟨vb, vp, hb, hpf, hne⟩
    refine Or.inl (List.mem_filterMap.mpr
      ⟨(k, vp), SMap.mem_of_find?_eq_some hpf, ?_⟩)
    rw [show (k, vp).1 = k from rfl, hb]
    dsimp only
    rw [if_pos hne]

theorem removed_mem_computeDiff_iff (b p : SMap) (k : String) :
    DiffEntry.mk DiffType.removed k ∈ computeDiff b p ↔
      k ∈ SMap.keys b ∧ SMap.find? p k = none := by
  rw [computeDiff, List.mem_append]
  constructor
  · intro h
    rcases h with h | h
    · exact absurd (mem_diffAddedModified_key h).2 (by simp)
    · have := mem_diffRemoved_key h
      exact ⟨this.1, this.2.1⟩
  · rintro ⟨hk, hpf⟩
    obtain ⟨⟨k1, v1⟩, hmem, hk1⟩ := List.mem_map.mp hk
    dsimp at hk1
    subst hk1
    refine Or.inr (List.mem_filterMap.mpr ⟨(k1, v1), hmem, ?_⟩)
    rw [if_neg (by rw [hpf]; simp)]

theorem map_key_filterMap_sublist (f : (String × String) → Option DiffEntry)
    (hf : ∀ kv e, f kv = some e → e.key = kv.1) (l : SMap) :
    ((l.filterMap f).map DiffEntry.key).Sublist (l.map Prod.fst) := by
  induction l with
  | nil => simp
  | cons kv rest ih =>
    rw [List.filterMap_cons]
    cases hkv : f kv with
    | none =>
      rw [List.map_cons]
      exact ih.cons kv.1
    | some e =>
      rw [List.map_cons, List.map_cons, hf kv e hkv]
      exact ih.cons₂ kv.1

theorem keys_diffAddedModified_sublist (b p : SMap) :
    ((diffAddedModified b p).map DiffEntry.key).Sublist (SMap.keys p) := by
  refine map_key_filterMap_sublist _ (fun kv e he => ?_) p
  cases hb : SMap.find? b kv.1 with
  | none =>
    rw [hb] at he
    dsimp only at he
    injection he with he
    exact (congrArg DiffEntry.key he).symm
  | some vb =>
    rw [hb] at he
    dsimp only at he
    by_cases hv : vb ≠ kv.2
    · rw [if_pos hv] at he
      injection he with he
      exact (congrArg DiffEntry.key he).symm
    · rw [if_neg hv] at he
      exact absurd he (by simp)

theorem keys_diffRemoved_sublist (b p : SMap) :
    ((diffRemoved b p).map DiffEntry.key).Sublist (SMap.keys b) := by
  refine map_key_filterMap_sublist _ (fun kv e he => ?_) b
  by_cases hs : (SMap.find? p kv.1).isSome = true
  · rw [if_pos hs] at he
    exact absurd he (by simp)
  · rw [if_neg hs] at he
    injection he with he
    exact (congrArg DiffEntry.key he).symm

theorem keys_computeDiff_nodup (b p : SMap)
    (hb : (SMap.keys b).Nodup) (hp : (SMap.keys p).Nodup) :
    ((computeDiff b p).map DiffEntry.key).Nodup := by
  rw [computeDiff, List.map_append]
  refine List.Nodup.append
    ((keys_diffAddedModified_sublist b p).nodup hp)
    ((keys_diffRemoved_sublist b p).nodup hb)
    (fun k h1 h2 => ?_)
  obtain ⟨e1, he1, hk1⟩ := List.mem_map.mp h1
  obtain ⟨e2, he2, hk2⟩ := List.mem_map.mp h2
  have hin : e1.key ∈ SMap.keys p := (mem_diffAddedModified_key he1).1
  have hout : SMap.find? p e2.key = none := (mem_diffRemoved_key he2).2.1
  rw [hk1] at hin
  rw [hk2] at hout
  rw [SMap.find?_eq_none_iff] at hout
  exact hout hin

theorem computeDiff_self (b : SMap) (hb : (SMap.keys b).Nodup) :
    computeDiff b b = [] := by
  rw [computeDiff, List.append_eq_nil]
  constructor
  · rw [diffAddedModified, List.filterMap_eq_nil_iff]
    intro kv hkv
    rw [SMap.find?_eq_some_of_mem hb hkv]
    simp
  · rw [diffRemoved, List.filterMap_eq_nil_iff]
    intro kv hkv
    rw [if_pos]
    rw [SMap.find?_isSome_iff]
    exact List.mem_map_of_mem Prod.fst hkv

/-- C7: for every pair of baseline and proposed mappings (unique keys, as
for JavaScript objects), computeDiff emits exactly one entry per differing
key — added for keys only in proposed, modified for keys in both with
unequal values, removed for keys only in baseline — emits no entry for keys
with equal values, yields the empty sequence on equal mappings, and orders
all added/modified entries before all removed entries. -/
theorem computeDiff_correct (b p : SMap)
    (hb : (SMap.keys b).Nodup) (hp : (SMap.keys p).Nodup) :
    (∀ k, DiffEntry.mk DiffType.added k ∈ computeDiff b p ↔
        k ∈ SMap.keys p ∧ SMap.find? b k = none) ∧
    (∀ k, DiffEntry.mk DiffType.modified k ∈ computeDiff b p ↔
        ∃ vb vp, SMap.find? b k = some vb ∧ SMap.find? p k = some vp ∧
          vb ≠ vp) ∧
    (∀ k, DiffEntry.mk DiffType.removed k ∈ computeDiff b p ↔
        k ∈ SMap.keys b ∧ SMap.find? p k = none) ∧
    (∀ k v, SMap.find? b k = some v → SMap.find? p k = some v →
        ∀ e ∈ computeDiff b p, e.key ≠ k) ∧
    ((computeDiff b p).map DiffEntry.key).Nodup ∧
    computeDiff b b = [] ∧
    (∃ front back, computeDiff b p = front ++ back ∧
        (∀ e ∈ front, e.type ≠ DiffType.removed) ∧
        (∀ e ∈ back, e.type = DiffType.removed)) := by
  refine ⟨added_mem_computeDiff_iff b p,
    fun k => modified_mem_computeDiff_iff b p k hp,
    removed_mem_computeDiff_iff b p,
    fun k v hbk hpk e he hek => ?_,
    keys_computeDiff_nodup b p hb hp,
    computeDiff_self b hb,
    diffAddedModified b p, diffRemoved b p, rfl,
    fun e he => (mem_diffAddedModified_key he).2,
    fun e he => (mem_diffRemoved_key he).2.2⟩
  obtain ⟨t, key⟩ := e
  dsimp at hek
  subst hek
  cases t with
  | added =>
    have := ((added_mem_computeDiff_iff b p key).mp he).2
    rw [this] at hbk
    exact Option.noConfusion hbk
  | modified =>
    obtain ⟨vb, vp, hvb, hvp, hne⟩ :=
      (modified_mem_computeDiff_iff b p key hp).mp he
    rw [hbk] at hvb
    rw [hpk] at hvp
    injection hvb with hvb
    injection hvp with hvp
    exact hne (hvb.symm.trans hvp)
  | removed =>
    have := ((removed_mem_computeDiff_iff b p key).mp he).2
    rw [this] at hpk
    exact Option.noConfusion hpk

def bW : SMap := [("DB_URL", "old"), ("GONE", "1")]

def pW : SMap := [("DB_URL", "new"), ("NEW_KEY", "v")]

/-- Witness for C7 at a concrete pair of mappings. -/
theorem computeDiff_correct_witness :
    DiffEntry.mk DiffType.modified "DB_URL" ∈ computeDiff bW pW ∧
    DiffEntry.mk DiffType.added "NEW_KEY" ∈ computeDiff bW pW ∧
    DiffEntry.mk DiffType.removed "GONE" ∈ computeDiff bW pW := by
  have h := computeDiff_correct bW pW (by decide) (by decide)
  exact ⟨(h.2.1 "DB_URL").mpr ⟨"old", "new", rfl, rfl, by decide⟩,
    (h.1 "NEW_KEY").mpr ⟨by decide, rfl⟩,
    (h.2.2.1 "GONE").mpr ⟨by decide, rfl⟩⟩

/-- C1: for every pending change recording a secretVersionId, if the live
secret currently carries a version id that differs from the recorded one,
approve fails with the version conflict (HTTP 409) and leaves the whole
world — live secret, staging record and ledger — unchanged. -/
theorem approve_version_conflict (prevent : Bool)
    (cid reviewerEmail : String) (comment : Option String)
    (newVid now : String) (w : World) (change : ChangeRequest)
    (v1 v2 : String)
    (h1 : getChangeById w cid = some change)
    (h2 : change.status = Status.pending)
    (h3 : ¬(prevent = true ∧ change.proposedBy = reviewerEmail))
    (h4 : change.secretVersionId = some v1) (h4b : v1 ≠ "")
    (h5 : (getCurrentSecretValue w change.project change.env).2 = some v2)
    (h5b : v2 ≠ "") (h6 : v2 ≠ v1) :
    approve prevent (some cid) reviewerEmail comment newVid now w =
      (ApproveResult.versionConflict, w) ∧
    ApproveResult.versionConflict.statusCode = 409 := by
  have hvc : versionConflictDetected w change = true := by
    rw [versionConflictDetected, h4]
    dsimp only
    rw [if_neg h4b, h5]
    dsimp only
    rw [if_neg h5b]
    exact decide_eq_true h6
  refine ⟨?_, rfl⟩
  simp [approve, h1, h2, h3, hvc]

def recC1 : ChangeRequest :=
  { pk := buildPk "proj" "prod", sk := buildSk "T0" "c1", changeId := "c1",
    project := "proj", env := "prod", status := Status.pending,
    proposedBy := "alice@example.com",
    stagingSecretName := "secret-review/pending/c1",
    diff := [⟨DiffType.modified, "DB_URL"⟩], diffCount := 1,
    reason := "rotate", createdAt := "T0", secretVersionId := some "V1" }

def wC1 : World :=
  ⟨[(("proj", "prod"), ⟨[("DB_URL", "other")], some "V2", none⟩)],
   [("c1", ⟨[("DB_URL", "new")], [("DB_URL", "old")], "proj", "prod"⟩)],
   [recC1]⟩

/-- Witness for C1: a concrete pending change recorded at version V1 while
the live secret is at V2. -/
theorem approve_version_conflict_witness :
    approve true (some "c1") "bob@example.com" none "NV" "T1" wC1 =
      (ApproveResult.versionConflict, wC1) ∧
    ApproveResult.versionConflict.statusCode = 409 :=
  approve_version_conflict true "c1" "bob@example.com" none "NV" "T1" wC1
    recC1 "V1" "V2" (by decide) (by decide) (by decide) (by decide)
    (by decide) (by decide) (by decide) (by decide)

/-- C4 (amended): approve on a pending change passing the status,
self-approval and version checks whose staging record is absent fails with
the HTTP 500 missing-staging error (not a 404) and mutates nothing. -/
theorem approve_missing_staging (prevent : Bool)
    (cid reviewerEmail : String) (comment : Option String)
    (newVid now : String) (w : World) (change : ChangeRequest)
    (h1 : getChangeById w cid = some change)
    (h2 : change.status = Status.pending)
    (h3 : ¬(prevent = true ∧ change.proposedBy = reviewerEmail))
    (h4 : versionConflictDetected w change = false)
    (h5 : getStagingSecretValue w cid = none) :
    approve prevent (some cid) reviewerEmail comment newVid now w =
      (ApproveResult.stagingMissing, w) ∧
    ApproveResult.stagingMissing.statusCode = 500 := by
  refine ⟨?_, rfl⟩
  simp [approve, h1, h2, h3, h4, h5]

def recC4 : ChangeRequest :=
  { pk := buildPk "proj" "prod", sk := buildSk "T0" "c4", changeId := "c4",
    project := "proj", env := "prod", status := Status.pending,
    proposedBy := "alice@example.com",
    stagingSecretName := "secret-review/pending/c4",
    diff := [⟨DiffType.modified, "DB_URL"⟩], diffCount := 1,
    reason := "rotate", createdAt := "T0", secretVersionId := some "V1" }

def wC4 : World :=
  ⟨[(("proj", "prod"), ⟨[("DB_URL", "old")], some "V1", none⟩)], [], [recC4]⟩

/-- Counterexample for C4 as stated: at a concrete pending change whose
staging record is absent, approve returns HTTP status 500, not the claimed
not-found status 404 (it does leave the world unchanged). -/
theorem approve_missing_staging_counterexample :
    (approve true (some "c4") "bob@example.com" none "NV" "T1" wC4).1.statusCode
        = 500 ∧
    ¬((approve true (some "c4") "bob@example.com" none "NV" "T1"
        wC4).1.statusCode = 404) ∧
    (approve true (some "c4") "bob@example.com" none "NV" "T1" wC4).2 = wC4 := by
  decide

/-- Witness for the amended C4 at the same concrete input. -/
theorem approve_missing_staging_witness :
    approve true (some "c4") "bob@example.com" none "NV" "T1" wC4 =
      (ApproveResult.stagingMissing, wC4) ∧
    ApproveResult.stagingMissing.statusCode = 500 :=
  approve_missing_staging true "c4" "bob@example.com" none "NV" "T1" wC4
    recC4 (by decide) (by decide) (by decide) (by decide) (by decide)

/-- C5 (amended): rollback on a target change whose status is pending or
rejected fails with the invalid-state error, reported with HTTP 400 (the
validation class, not 409), and performs no writes at all. -/
theorem rollback_requires_approved (body : RollbackBody)
    (userEmail rollbackId now newVid : String) (w : World)
    (target : ChangeRequest)
    (hf1 : body.changeId ≠ "") (hf2 : body.reason ≠ "")
    (h1 : getChangeById w body.changeId = some target)
    (h2 : target.status = Status.pending ∨ target.status = Status.rejected) :
    rollback body userEmail rollbackId now newVid w =
      (RollbackResult.notApproved, w) ∧
    RollbackResult.notApproved.statusCode = 400 := by
  have h2a : target.status ≠ Status.approved := by
    rcases h2 with h | h <;> rw [h] <;> simp
  refine ⟨?_, rfl⟩
  simp [rollback, hf1, hf2, h1, h2a]

def recC5 : ChangeRequest :=
  { pk := buildPk "proj" "prod", sk := buildSk "T0" "c5", changeId := "c5",
    project := "proj", env := "prod", status := Status.pending,
    proposedBy := "alice@example.com",
    stagingSecretName := "secret-review/pending/c5",
    diff := [⟨DiffType.modified, "DB_URL"⟩], diffCount := 1,
    reason := "rotate", createdAt := "T0", secretVersionId := some "V1" }

def wC5 : World :=
  ⟨[(("proj", "prod"), ⟨[("DB_URL", "old")], some "V1", some [("DB_URL", "x")]⟩)],
   [], [recC5]⟩

/-- Counterexample for C5 as stated: at a concrete pending target change,
rollback reports HTTP status 400, not the claimed state-conflict status 409
(it does perform no writes). -/
theorem rollback_requires_approved_counterexample :
    (rollback ⟨"c5", "undo"⟩ "admin@example.com" "rb5" "T5" "NV"
        wC5).1.statusCode = 400 ∧
    ¬((rollback ⟨"c5", "undo"⟩ "admin@example.com" "rb5" "T5" "NV"
        wC5).1.statusCode = 409) ∧
    (rollback ⟨"c5", "undo"⟩ "admin@example.com" "rb5" "T5" "NV" wC5).2 =
      wC5 := by
  decide

/-- Witness for the amended C5 at the same concrete input. -/
theorem rollback_requires_approved_witness :
    rollback ⟨"c5", "undo"⟩ "admin@example.com" "rb5" "T5" "NV" wC5 =
      (RollbackResult.notApproved, wC5) ∧
    RollbackResult.notApproved.statusCode = 400 :=
  rollback_requires_approved ⟨"c5", "undo"⟩ "admin@example.com" "rb5" "T5"
    "NV" wC5 recC5 (by decide) (by decide) (by decide) (Or.inl (by decide))

/-- C6: with preventSelfApproval enabled, approve by the proposer of a
pending change fails with SelfApprovalForbidden (HTTP 403) and changes no
state, while reject by the proposer of the same pending change is permitted
(no self-approval check on the reject path). -/
theorem self_approval_blocked (cid reviewerEmail : String)
    (comment : Option String) (newVid now : String) (w : World)
    (change : ChangeRequest)
    (h1 : getChangeById w cid = some change)
    (h2 : change.status = Status.pending)
    (h3 : change.proposedBy = reviewerEmail) :
    (approve true (some cid) reviewerEmail comment newVid now w =
        (ApproveResult.selfApprovalForbidden, w) ∧
      ApproveResult.selfApprovalForbidden.statusCode = 403) ∧
    ((reject (some cid) reviewerEmail comment now w).1 =
        RejectResult.rejected cid ∧
      (RejectResult.rejected cid).statusCode = 200) := by
  refine ⟨⟨?_, rfl⟩, ⟨?_, rfl⟩⟩
  · simp [approve, h1, h2, h3]
  · simp [reject, h1, h2]

def recC6 : ChangeRequest :=
  { pk := buildPk "proj" "prod", sk := buildSk "T0" "c6", changeId := "c6",
    project := "proj", env := "prod", status := Status.pending,
    proposedBy := "alice@example.com",
    stagingSecretName := "secret-review/pending/c6",
    diff := [⟨DiffType.modified, "DB_URL"⟩], diffCount := 1,
    reason := "rotate", createdAt := "T0", secretVersionId := some "V1" }

def wC6 : World :=
  ⟨[(("proj", "prod"), ⟨[("DB_URL", "old")], some "V1", none⟩)],
   [("c6", ⟨[("DB_URL", "new")], [("DB_URL", "old")], "proj", "prod"⟩)],
   [recC6]⟩

/-- Witness for C6: the proposer attempts to approve and to reject their
own concrete pending change. -/
theorem self_approval_blocked_witness :
    (approve true (some "c6") "alice@example.com" none "NV" "T1" wC6 =
        (ApproveResult.selfApprovalForbidden, wC6) ∧
      ApproveResult.selfApprovalForbidden.statusCode = 403) ∧
    ((reject (some "c6") "alice@example.com" none "T1" wC6).1 =
        RejectResult.rejected "c6" ∧
      (RejectResult.rejected "c6").statusCode = 200) :=
  self_approval_blocked "c6" "alice@example.com" none "NV" "T1" wC6 recC6
    (by decide) (by decide) (by decide)

/-- C8: when propose passes validation (fields present, configured target,
valid staging name, staging present and matching) and the diff between the
live baseline and the staged proposed values is empty, it returns the
NoChange success (HTTP 200) and the world — in particular the change
ledger — is left exactly as it was. -/
theorem propose_no_change (projectsConfig : List (String × List String))
    (secretsNs : String) (body : ProposeRequestBody) (proposedBy now : String)
    (w : World) (allowedEnvs : List String)
    (stagingData : StagingSecretPayload)
    (hne : body.project ≠ "" ∧ body.env ≠ "" ∧ body.stagingSecretName ≠ "" ∧
      body.reason ≠ "")
    (hcfg : lookupConfig projectsConfig body.project = some allowedEnvs)
    (henv : body.env ∈ allowedEnvs)
    (hsn : strStartsWith body.stagingSecretName (secretsNs ++ "pending/") =
      true)
    (hst : getStagingSecretValue w
      (strDrop body.stagingSecretName (secretsNs ++ "pending/").length) =
        some stagingData)
    (hm : stagingData.project = body.project ∧ stagingData.env = body.env)
    (hd : computeDiff (getCurrentSecretValue w body.project body.env).1
      stagingData.proposed = []) :
    propose projectsConfig secretsNs body proposedBy now w =
      (ProposeResult.noChange, w) ∧
    ProposeResult.noChange.statusCode = 200 := by
  refine ⟨?_, rfl⟩
  have hst2 := hst
  simp only [String.length_append] at hst2
  simp [propose, hne.1, hne.2.1, hne.2.2.1, hne.2.2.2, hcfg, henv, hsn, hst2,
    hm.1, hm.2, hd]

def wC8 : World :=
  ⟨[(("proj", "prod"), ⟨[("DB_URL", "old")], some "V1", none⟩)],
   [("c8", ⟨[("DB_URL", "old")], [("DB_URL", "old")], "proj", "prod"⟩)],
   []⟩

/-- Witness for C8: proposing content identical to the live secret. -/
theorem propose_no_change_witness :
    propose [("proj", ["prod"])] "secret-review/"
      ⟨"proj", "prod", "secret-review/pending/c8", "rotate"⟩
      "alice@example.com" "T0" wC8 = (ProposeResult.noChange, wC8) ∧
    ProposeResult.noChange.statusCode = 200 :=
  propose_no_change [("proj", ["prod"])] "secret-review/"
    ⟨"proj", "prod", "secret-review/pending/c8", "rotate"⟩
    "alice@example.com" "T0" wC8 ["prod"]
    ⟨[("DB_URL", "old")], [("DB_URL", "old")], "proj", "prod"⟩
    (by decide) (by decide) (by decide) (by decide) (by decide)
    (by decide) (by decide)

/-- C3: rollback of an approved change reads the prior version of the live
secret, writes exactly those prior values back, and appends a new approved
ChangeRequest with the freshly minted id (distinct from the target's),
empty stagingSecretName, the single sentinel modified diff entry keyed
"[rollback of <targetChangeId>]", currentKeys the key set of the prior
values, reviewedBy/reviewedAt the acting identity/time, and reason
"Rollback: " prepended to the supplied reason. -/
theorem rollback_restores_prior (body : RollbackBody)
    (userEmail rollbackId now newVid : String) (w : World)
    (target : ChangeRequest) (priorVals : SMap)
    (hf1 : body.changeId ≠ "") (hf2 : body.reason ≠ "")
    (h1 : getChangeById w body.changeId = some target)
    (h2 : target.status = Status.approved)
    (h3 : getSecretByVersionStage w target.project target.env =
      some priorVals)
    (hfresh : rollbackId ≠ target.changeId) :
    (rollback body userEmail rollbackId now newVid w).1 =
      RollbackResult.rolledBack rollbackId target.project target.env ∧
    (getCurrentSecretValue (rollback body userEmail rollbackId now newVid w).2
      target.project target.env).1 = priorVals ∧
    (rollback body userEmail rollbackId now newVid w).2.ledger =
      w.ledger ++
        [{ pk := buildPk target.project target.env
           sk := buildSk now rollbackId
           changeId := rollbackId
           project := target.project
           env := target.env
           status := Status.approved
           proposedBy := userEmail
           stagingSecretName := ""
           diff := [⟨DiffType.modified,
             "[rollback of " ++ body.changeId ++ "]"⟩]
           diffCount := (SMap.keys priorVals).length
           reason := "Rollback: " ++ body.reason
           reviewedBy := some userEmail
           reviewedAt := some now
           createdAt := now
           currentKeys := some (SMap.keys priorVals) }] ∧
    rollbackId ≠ target.changeId := by
  obtain ⟨s, hs, hprev⟩ : ∃ s,
      lookupLive w.live target.project target.env = some s ∧
      s.previousValues = some priorVals := by
    rw [getSecretByVersionStage] at h3
    cases hls : lookupLive w.live target.project target.env with
    | none => rw [hls] at h3; exact Option.noConfusion h3
    | some s => rw [hls] at h3; exact ⟨s, rfl, h3⟩
  have h2a : ¬(target.status ≠ Status.approved) := by rw [h2]; simp
  have hput := lookupLive_putLive w.live target.project target.env priorVals
    newVid s hs
  refine ⟨?_, ?_, ?_, hfresh⟩ <;>
    simp only [rollback, hf1, hf2, h1, h2a, h3, if_neg, ite_false,
      if_false, decide_not] <;>
    simp [hf1, hf2, putChange, putSecretValue, getCurrentSecretValue, hput]

def recC3 : ChangeRequest :=
  { pk := buildPk "proj" "prod", sk := buildSk "T0" "c3", changeId := "c3",
    project := "proj", env := "prod", status := Status.approved,
    proposedBy := "alice@example.com",
    stagingSecretName := "secret-review/pending/c3",
    diff := [⟨DiffType.modified, "DB_URL"⟩], diffCount := 1,
    reason := "rotate", createdAt := "T0", secretVersionId := some "V1",
    reviewedBy := some "bob@example.com", reviewedAt := some "T1" }

def wC3 : World :=
  ⟨[(("proj", "prod"),
     ⟨[("DB_URL", "new")], some "V2", some [("DB_URL", "old")]⟩)],
   [], [recC3]⟩

/-- Witness for C3: rolling back a concrete approved change whose live
secret previously held DB_URL=old. -/
theorem rollback_restores_prior_witness :
    (rollback ⟨"c3", "bad deploy"⟩ "admin@example.com" "rb3" "T9" "V3"
        wC3).1 = RollbackResult.rolledBack "rb3" "proj" "prod" ∧
    (getCurrentSecretValue
      (rollback ⟨"c3", "bad deploy"⟩ "admin@example.com" "rb3" "T9" "V3"
        wC3).2 "proj" "prod").1 = [("DB_URL", "old")] ∧
    (rollback ⟨"c3", "bad deploy"⟩ "admin@example.com" "rb3" "T9" "V3"
        wC3).2.ledger =
      wC3.ledger ++
        [{ pk := buildPk "proj" "prod"
           sk := buildSk "T9" "rb3"
           changeId := "rb3"
           project := "proj"
           env := "prod"
           status := Status.approved
           proposedBy := "admin@example.com"
           stagingSecretName := ""
           diff := [⟨DiffType.modified, "[rollback of " ++ "c3" ++ "]"⟩]
           diffCount := (SMap.keys [("DB_URL", "old")]).length
           reason := "Rollback: " ++ "bad deploy"
           reviewedBy := some "admin@example.com"
           reviewedAt := some "T9"
           createdAt := "T9"
           currentKeys := some (SMap.keys [("DB_URL", "old")]) }] ∧
    "rb3" ≠ recC3.changeId :=
  rollback_restores_prior ⟨"c3", "bad deploy"⟩ "admin@example.com" "rb3"
    "T9" "V3" wC3 recC3 [("DB_URL", "old")] (by decide) (by decide)
    (by decide) (by decide) (by decide) (by decide)

/-- C10 (implicit): for a pending change passing the earlier checks (with
version ids well formed, never the empty string), the version-conflict
check is vacuous when the current read carries no version id — the
approval then proceeds to the write path — and approve reports a version
conflict exactly when both the recorded and the current version identifiers
are present and unequal. -/
theorem approve_version_check_vacuous (prevent : Bool)
    (cid reviewerEmail : String) (comment : Option String)
    (newVid now : String) (w : World) (change : ChangeRequest)
    (h1 : getChangeById w cid = some change)
    (h2 : change.status = Status.pending)
    (h3 : ¬(prevent = true ∧ change.proposedBy = reviewerEmail))
    (hw1 : change.secretVersionId ≠ some "")
    (hw2 : (getCurrentSecretValue w change.project change.env).2 ≠ some "") :
    (∀ stagingData s,
      (getCurrentSecretValue w change.project change.env).2 = none →
      getStagingSecretValue w cid = some stagingData →
      lookupLive w.live change.project change.env = some s →
      (approve prevent (some cid) reviewerEmail comment newVid now w).1 =
        ApproveResult.applied cid change.project change.env) ∧
    ((approve prevent (some cid) reviewerEmail comment newVid now w).1 =
        ApproveResult.versionConflict ↔
      ∃ r c, change.secretVersionId = some r ∧
        (getCurrentSecretValue w change.project change.env).2 = some c ∧
        c ≠ r) := by
  have hiff : versionConflictDetected w change = true ↔
      ∃ r c, change.secretVersionId = some r ∧
        (getCurrentSecretValue w change.project change.env).2 = some c ∧
        c ≠ r := by
    constructor
    · intro h
      rw [versionConflictDetected] at h
      cases hv : change.secretVersionId with
      | none => rw [hv] at h; exact absurd h (by simp)
      | some r =>
        rw [hv] at h
        dsimp only at h
        by_cases hr : r = ""
        · rw [if_pos hr] at h; exact absurd h (by simp)
        · rw [if_neg hr] at h
          cases hc : (getCurrentSecretValue w change.project change.env).2 with
          | none => rw [hc] at h; exact absurd h (by simp)
          | some c =>
            rw [hc] at h
            dsimp only at h
            by_cases hcz : c = ""
            · rw [if_pos hcz] at h; exact absurd h (by simp)
            · rw [if_neg hcz] at h
              exact ⟨r, c, rfl, rfl, of_decide_eq_true h⟩
    · rintro ⟨r, c, hv, hc, hne⟩
      have hr : r ≠ "" := fun h => hw1 (h ▸ hv)
      have hcz : c ≠ "" := fun h => hw2 (h ▸ hc)
      rw [versionConflictDetected, hv]
      dsimp only
      rw [if_neg hr, hc]
      dsimp only
      rw [if_neg hcz]
      exact decide_eq_true hne
  constructor
  · intro stagingData s hcur hst hll
    have hvc : versionConflictDetected w change = false := by
      rw [versionConflictDetected]
      cases hv : change.secretVersionId with
      | none => rfl
      | some r =>
        dsimp only
        by_cases hr : r = ""
        · rw [if_pos hr]
        · rw [if_neg hr, hcur]
    simp [approve, h1, h2, h3, hvc, hst, hll]
  · refine Iff.trans ?_ hiff
    constructor
    · intro hres
      by_contra hvc
      have hvc2 : versionConflictDetected w change = false :=
        eq_false_of_ne_true hvc
      simp only [approve, h1, h2, h3, hvc2, ne_eq, not_true_eq_false,
        if_false, ite_false, Bool.false_eq_true, ite_self] at hres
      cases hst : getStagingSecretValue w cid with
      | none => rw [hst] at hres; simp at hres
      | some sd =>
        rw [hst] at hres
        cases hll : lookupLive w.live change.project change.env with
        | none => rw [hll] at hres; simp at hres
        | some s => rw [hll] at hres; simp at hres
    · intro hvc
      simp [approve, h1, h2, h3, hvc]

def recC10 : ChangeRequest :=
  { pk := buildPk "proj" "prod", sk := buildSk "T0" "c10", changeId := "c10",
    project := "proj", env := "prod", status := Status.pending,
    proposedBy := "alice@example.com",
    stagingSecretName := "secret-review/pending/c10",
    diff := [⟨DiffType.modified, "DB_URL"⟩], diffCount := 1,
    reason := "rotate", createdAt := "T0", secretVersionId := some "V1" }

def spC10 : StagingSecretPayload :=
  ⟨[("DB_URL", "new")], [("DB_URL", "old")], "proj", "prod"⟩

def lsC10 : LiveSecret := ⟨[("DB_URL", "old")], none, none⟩

def wC10 : World :=
  ⟨[(("proj", "prod"), lsC10)], [("c10", spC10)], [recC10]⟩

/-- Witness for C10: a pending change recorded at V1 while the current read
carries no version id — approval proceeds to the write path. -/
theorem approve_version_check_vacuous_witness :
    (approve true (some "c10") "bob@example.com" none "NV" "T1" wC10).1 =
      ApproveResult.applied "c10" "proj" "prod" :=
  (approve_version_check_vacuous true "c10" "bob@example.com" none "NV" "T1"
    wC10 recC10 (by decide) (by decide) (by decide) (by decide)
    (by decide)).1 spC10 lsC10 (by decide) (by decide) (by decide)

/-- C2 (amended): a record persisted by propose satisfies
diffCount = diff.length, while a record minted by rollback stores the
single sentinel diff entry (diff of length 1) with diffCount equal to the
number of keys of the restored prior values. -/
theorem diffCount_of_persisted (projectsConfig : List (String × List String))
    (secretsNs : String) (pbody : ProposeRequestBody)
    (proposedBy pnow : String) (rbody : RollbackBody)
    (userEmail rollbackId rnow newVid : String) (w : World) :
    ((propose projectsConfig secretsNs pbody proposedBy pnow w).2.ledger =
        w.ledger ∨
      ∃ r, (propose projectsConfig secretsNs pbody proposedBy pnow
          w).2.ledger = w.ledger ++ [r] ∧
        r.diffCount = r.diff.length) ∧
    ((rollback rbody userEmail rollbackId rnow newVid w).2.ledger =
        w.ledger ∨
      ∃ r target vals,
        (rollback rbody userEmail rollbackId rnow newVid w).2.ledger =
          w.ledger ++ [r] ∧
        getChangeById w rbody.changeId = some target ∧
        getSecretByVersionStage w target.project target.env = some vals ∧
        r.diff.length = 1 ∧ r.diffCount = (SMap.keys vals).length) := by
  constructor
  · simp only [propose]
    repeat' split
    all_goals
      first
        | exact Or.inl rfl
        | exact Or.inr ⟨_, rfl, rfl⟩
  · simp only [rollback]
    split
    · exact Or.inl rfl
    · split
      · exact Or.inl rfl
      · next target heq =>
        split
        · exact Or.inl rfl
        · split
          · exact Or.inl rfl
          · next vals heq2 =>
            exact Or.inr ⟨_, target, vals, rfl, heq, heq2, rfl, rfl⟩

def recC2 : ChangeRequest :=
  { pk := buildPk "proj" "prod", sk := buildSk "T0" "c2", changeId := "c2",
    project := "proj", env := "prod", status := Status.approved,
    proposedBy := "alice@example.com",
    stagingSecretName := "secret-review/pending/c2",
    diff := [⟨DiffType.modified, "A"⟩], diffCount := 1,
    reason := "rotate", createdAt := "T0", secretVersionId := some "V1",
    reviewedBy := some "bob@example.com", reviewedAt := some "T1" }

def wC2 : World :=
  ⟨[(("proj", "prod"),
     ⟨[("A", "2"), ("B", "2")], some "V2", some [("A", "1"), ("B", "1")]⟩)],
   [], [recC2]⟩

/-- Counterexample for C2 as stated: rolling back a concrete approved
change whose prior version held two keys mints a ledger record whose
diffCount is 2 while its stored diff sequence has length 1. -/
theorem diffCount_of_persisted_counterexample :
    ((rollback ⟨"c2", "oops"⟩ "admin@example.com" "rb2" "T2" "NV"
        wC2).2.ledger.getLast?.map
      (fun r => (r.diffCount, r.diff.length))) = some (2, 1) ∧
    (2 : Nat) ≠ 1 := by
  decide

theorem cleanupSweep_attempts (nowMs : Int) (delOk : String → Bool)
    (items : List StagingListItem) (w : World) :
    (cleanupSweep nowMs delOk items w).2.1 =
      (items.filter (shouldDeleteStaging nowMs w.ledger)).map
        deleteTargetId := by
  induction items generalizing w with
  | nil => rfl
  | cons secret rest ih =>
    rw [cleanupSweep, List.filter_cons]
    by_cases h : shouldDeleteStaging nowMs w.ledger secret = true
    · rw [if_pos h, if_pos h]
      dsimp only
      rw [List.map_cons]
      congr 1
      by_cases hd : delOk (deleteTargetId secret) = true
      · rw [if_pos hd]
        have hih := ih (deleteStagingSecret w (deleteTargetId secret))
        rw [show (deleteStagingSecret w (deleteTargetId secret)).ledger =
          w.ledger from rfl] at hih
        exact hih
      · rw [if_neg hd]
        exact ih w
    · rw [if_neg h, if_neg h]
      exact ih w

/-- C9: the sweep attempts the deletion of exactly the records its
selection marks, independently of individual deletion failures (one
failure does not abort the sweep); a record strictly older than the 7-day
window is marked regardless of its change; a younger record is marked when
its change is resolved (not pending) or missing, and retained when its
change is still pending. -/
theorem cleanup_selection (nowMs : Int) (w : World) (delOk : String → Bool)
    (items : List StagingListItem) (secret : StagingListItem) (t : Int)
    (cid : String) :
    ((cleanupSweep nowMs delOk items w).2.1 =
      (items.filter (shouldDeleteStaging nowMs w.ledger)).map
        deleteTargetId) ∧
    (secret.createdAt = some t → nowMs - t > MAX_AGE_DAYS * msPerDay →
      shouldDeleteStaging nowMs w.ledger secret = true) ∧
    (secret.createdAt = some t → ¬(nowMs - t > MAX_AGE_DAYS * msPerDay) →
      secret.changeId = some cid →
      ((findChange w.ledger cid = none →
          shouldDeleteStaging nowMs w.ledger secret = true) ∧
        (∀ c, findChange w.ledger cid = some c →
          c.status ≠ Status.pending →
          shouldDeleteStaging nowMs w.ledger secret = true) ∧
        (∀ c, findChange w.ledger cid = some c →
          c.status = Status.pending →
          shouldDeleteStaging nowMs w.ledger secret = false))) := by
  refine ⟨cleanupSweep_attempts nowMs delOk items w, fun h1 h2 => ?_,
    fun h1 h2 h3 => ⟨fun hn => ?_, fun c hc hcp => ?_, fun c hc hcp => ?_⟩⟩
  · simp [shouldDeleteStaging, h1, h2]
  · simp [shouldDeleteStaging, h1, h2, h3, hn]
  · simp [shouldDeleteStaging, h1, h2, h3, hc, hcp]
  · simp [shouldDeleteStaging, h1, h2, h3, hc, hcp]

def recC91 : ChangeRequest :=
  { pk := buildPk "proj" "prod", sk := buildSk "T0" "c91", changeId := "c91",
    project := "proj", env := "prod", status := Status.pending,
    proposedBy := "alice@example.com",
    stagingSecretName := "secret-review/pending/c91",
    diff := [⟨DiffType.modified, "A"⟩], diffCount := 1,
    reason := "one", createdAt := "T0", secretVersionId := some "V1" }

def recC92 : ChangeRequest :=
  { pk := buildPk "proj" "prod", sk := buildSk "T0" "c92", changeId := "c92",
    project := "proj", env := "prod", status := Status.approved,
    proposedBy := "alice@example.com",
    stagingSecretName := "secret-review/pending/c92",
    diff := [⟨DiffType.modified, "B"⟩], diffCount := 1,
    reason := "two", createdAt := "T0", secretVersionId := some "V1",
    reviewedBy := some "bob@example.com", reviewedAt := some "T1" }

def wC9 : World :=
  ⟨[], [("c91", ⟨[("A", "2")], [("A", "1")], "proj", "prod"⟩)],
   [recC91, recC92]⟩

def itemOldC9 : StagingListItem :=
  ⟨"secret-review/pending/old", some 0, some "old"⟩

def itemPendingC9 : StagingListItem :=
  ⟨"secret-review/pending/c91", some (8 * msPerDay - 1000), some "c91"⟩

def itemApprovedC9 : StagingListItem :=
  ⟨"secret-review/pending/c92", some (8 * msPerDay - 1000), some "c92"⟩

def itemOrphanC9 : StagingListItem :=
  ⟨"secret-review/pending/zz", some (8 * msPerDay - 1000), some "zz"⟩

def itemsC9 : List StagingListItem :=
  [itemOldC9, itemPendingC9, itemApprovedC9, itemOrphanC9]

def delOkC9 : String → Bool := fun target => target != "old"

/-- Witness for C9: an over-age record, a young record of a pending change,
a young record of an approved change and a young orphan; the deletion of
the first fails yet all marked records are still attempted. -/
theorem cleanup_selection_witness :
    shouldDeleteStaging (8 * msPerDay) wC9.ledger itemOldC9 = true ∧
    shouldDeleteStaging (8 * msPerDay) wC9.ledger itemApprovedC9 = true ∧
    shouldDeleteStaging (8 * msPerDay) wC9.ledger itemOrphanC9 = true ∧
    shouldDeleteStaging (8 * msPerDay) wC9.ledger itemPendingC9 = false ∧
    (cleanupSweep (8 * msPerDay) delOkC9 itemsC9 wC9).2.1 =
      ["old", "c92", "zz"] := by
  have hOld := cleanup_selection (8 * msPerDay) wC9 delOkC9 itemsC9
    itemOldC9 0 "old"
  have hApp := cleanup_selection (8 * msPerDay) wC9 delOkC9 itemsC9
    itemApprovedC9 (8 * msPerDay - 1000) "c92"
  have hOrp := cleanup_selection (8 * msPerDay) wC9 delOkC9 itemsC9
    itemOrphanC9 (8 * msPerDay - 1000) "zz"
  have hPen := cleanup_selection (8 * msPerDay) wC9 delOkC9 itemsC9
    itemPendingC9 (8 * msPerDay - 1000) "c91"
  refine ⟨hOld.2.1 rfl (by decide),
    (hApp.2.2 rfl (by decide) rfl).2.1 recC92 (by decide) (by decide),
    (hOrp.2.2 rfl (by decide) rfl).1 (by decide),
    (hPen.2.2 rfl (by decide) rfl).2.2 recC91 (by decide) (by decide),
    hOld.1.trans (by decide)⟩

end SecretReview
